import Mathlib

/-!
# Verification of pileupTools (`pileupTools.py`)

A shallow embedding of the per-line pileup-to-PED/MAP conversion pipeline of
`pileupTools.py`, together with theorems settling the specification claims.

Python strings are modelled as `List Char`; Python `ord` is `Char.toNat`;
the `SystemExit` fatal-exit pattern is modelled with `Except (List Char)`
(carrying the exit message); Python functions that can raise `IndexError`
on short inputs are modelled with `Option`.
-/

namespace PileupTools

/-- The string literal `"AGTC"` used in `check_bases` for the membership
test `current_alleles[i] in "AGTC"`. -/
def agtcStr : List Char := "AGTC".data

/-- The dictionary built by `filter_line`, holding one pileup line's data
(keys `chrom`, `pos`, `ref_base`, `alleles`, `base_qualities`, `snp_name`,
`snps` of the Python dict). -/
structure LineDict where
  chrom : List Char
  pos : List Char
  ref_base : List Char
  alleles : List Char
  base_qualities : List Char
  snp_name : List Char
  snps : List Char × List Char
deriving DecidableEq, Repr

/-- The loop of `check_bases`: iterate over the index-aligned quality and
allele characters (`for i in range(0, len(current_quals))`); keep the pair
when `ord(current_quals[i]) - 33 >= base_qual_cutoff` and
`current_alleles[i] in "AGTC"`, accumulating the kept alleles and the kept
qualities in order. The first list is the quality string, the second the
allele string; the result is `(new_alleles, new_quals)`. -/
def check_loop (base_qual_cutoff : Int) : List Char → List Char → List Char × List Char
  | q :: qs, a :: as =>
    let rest := check_loop base_qual_cutoff qs as
    if (q.toNat : Int) - 33 ≥ base_qual_cutoff then
      if a ∈ agtcStr then (a :: rest.1, q :: rest.2) else rest
    else rest
  | _, _ => ([], [])

/-- Prefix of the fatal message of `check_bases`:
`"Error: Quals and bases differ at " + snp_name + " stopping."`. -/
def qualsDifferPre : List Char := "Error: Quals and bases differ at ".data

/-- Suffix of the fatal message of `check_bases`. -/
def qualsDifferSuf : List Char := " stopping.".data

/-- `check_bases(line_dict, base_qual_cutoff)`: raise `SystemExit` when the
quality and allele strings have different lengths, otherwise rebuild
`alleles` and `base_qualities` from the pairs kept by the quality/base
filter, mutating the two keys of the dictionary. -/
def check_bases (line_dict : LineDict) (base_qual_cutoff : Int) :
    Except (List Char) LineDict :=
  let current_quals := line_dict.base_qualities
  let current_alleles := line_dict.alleles
  if current_quals.length ≠ current_alleles.length then
    Except.error (qualsDifferPre ++ line_dict.snp_name ++ qualsDifferSuf)
  else
    let result := check_loop base_qual_cutoff current_quals current_alleles
    Except.ok { line_dict with alleles := result.1, base_qualities := result.2 }

/-- The Boolean test applied by `check_bases` to an (allele, quality)
character pair: decoded Phred score at least the cutoff, and the allele
among `A`, `G`, `T`, `C`. -/
def keepPair (base_qual_cutoff : Int) (a q : Char) : Bool :=
  decide ((q.toNat : Int) - 33 ≥ base_qual_cutoff) && decide (a ∈ agtcStr)

/-- The (allele, quality) pairs `check_bases` keeps: the order-preserving
filter of the zipped allele/quality strings by `keepPair`. -/
def keptPairs (base_qual_cutoff : Int) (alleles quals : List Char) :
    List (Char × Char) :=
  (alleles.zip quals).filter (fun p => keepPair base_qual_cutoff p.1 p.2)

theorem check_loop_eq_filter (t : Int) :
    ∀ (qs as : List Char),
      check_loop t qs as =
        ((keptPairs t as qs).map Prod.fst, (keptPairs t as qs).map Prod.snd) := by
  intro qs
  induction qs with
  | nil => intro as; cases as <;> simp [check_loop, keptPairs]
  | cons q qs ih =>
    intro as
    cases as with
    | nil => simp [check_loop, keptPairs]
    | cons a as =>
      simp only [check_loop, keptPairs, List.zip_cons_cons, List.filter_cons, ih as]
      by_cases hq : (q.toNat : Int) - 33 ≥ t
      · by_cases ha : a ∈ agtcStr
        · simp [keepPair, hq, ha, keptPairs]
        · simp [keepPair, hq, ha, keptPairs]
      · simp [keepPair, hq, keptPairs]

/-- On a length-aligned record, `check_bases` succeeds and returns the
record with `alleles` and `base_qualities` replaced by the projections of
the kept pairs. -/
theorem check_bases_ok_eq (r : LineDict) (t : Int)
    (h : r.base_qualities.length = r.alleles.length) :
    check_bases r t =
      Except.ok { r with
        alleles := (keptPairs t r.alleles r.base_qualities).map Prod.fst,
        base_qualities := (keptPairs t r.alleles r.base_qualities).map Prod.snd } := by
  simp only [check_bases, h]
  simp [check_loop_eq_filter]

theorem zip_map_fst_snd {α β : Type} (l : List (α × β)) :
    (l.map Prod.fst).zip (l.map Prod.snd) = l := by
  induction l with
  | nil => rfl
  | cons p ps ih => simp [ih]

/-- C1: on any length-aligned record and any integer threshold,
`check_bases` keeps exactly the (allele, quality) pairs whose decoded
Phred score (`ord(q) - 33`) is at least the threshold and whose allele is
one of `A`, `G`, `T`, `C`, and rebuilds `alleles` and `base_qualities` as
the order-preserving subsequences given by those kept pairs. -/
theorem check_bases_quality_filter_spec (r : LineDict) (t : Int)
    (h : r.alleles.length = r.base_qualities.length) :
    ∃ r2, check_bases r t = Except.ok r2 ∧
      r2.alleles = (keptPairs t r.alleles r.base_qualities).map Prod.fst ∧
      r2.base_qualities = (keptPairs t r.alleles r.base_qualities).map Prod.snd ∧
      ∀ p : Char × Char,
        p ∈ keptPairs t r.alleles r.base_qualities ↔
          (p ∈ r.alleles.zip r.base_qualities ∧
            (p.2.toNat : Int) - 33 ≥ t ∧ p.1 ∈ agtcStr) := by
  refine ⟨_, check_bases_ok_eq r t h.symm, rfl, rfl, ?_⟩
  intro p
  simp [keptPairs, List.mem_filter, keepPair, and_assoc]

/-- Witness for C1 at a concrete record: alleles `aAG!`, qualities `FFF!`,
threshold 30; only the pairs `(A, F)` and `(G, F)` survive. -/
theorem check_bases_quality_filter_spec_witness :
    ({ chrom := [], pos := [], ref_base := [],
       alleles := "aAG!".data, base_qualities := "FFF!".data,
       snp_name := [], snps := ([], []) } : LineDict).alleles.length =
      "FFF!".data.length ∧
    ∃ r2, check_bases
        { chrom := [], pos := [], ref_base := [],
          alleles := "aAG!".data, base_qualities := "FFF!".data,
          snp_name := [], snps := ([], []) } 30 = Except.ok r2 ∧
      r2.alleles =
        (keptPairs 30 "aAG!".data "FFF!".data).map Prod.fst ∧
      r2.base_qualities =
        (keptPairs 30 "aAG!".data "FFF!".data).map Prod.snd ∧
      ∀ p : Char × Char,
        p ∈ keptPairs 30 "aAG!".data "FFF!".data ↔
          (p ∈ "aAG!".data.zip "FFF!".data ∧
            (p.2.toNat : Int) - 33 ≥ 30 ∧ p.1 ∈ agtcStr) :=
  ⟨by decide,
   check_bases_quality_filter_spec
     { chrom := [], pos := [], ref_base := [],
       alleles := "aAG!".data, base_qualities := "FFF!".data,
       snp_name := [], snps := ([], []) } 30 (by decide)⟩

/-- C6: when the quality string's length differs from the allele string's,
`check_bases` exits fatally with a message naming the offending SNP; when
they agree the error branch is never taken and a record is returned. -/
theorem check_bases_length_mismatch_fatal (r : LineDict) (t : Int) :
    (r.base_qualities.length ≠ r.alleles.length →
      check_bases r t =
        Except.error (qualsDifferPre ++ r.snp_name ++ qualsDifferSuf)) ∧
    (r.base_qualities.length = r.alleles.length →
      ∃ r2, check_bases r t = Except.ok r2) := by
  constructor
  · intro h
    simp [check_bases, h]
  · intro h
    exact ⟨_, check_bases_ok_eq r t h⟩

/-- Witness for C6: a record with 2 qualities but 1 allele aborts with the
message naming its SNP `rs1`; with aligned strings `check_bases` returns. -/
theorem check_bases_length_mismatch_fatal_witness :
    (check_bases
        { chrom := [], pos := [], ref_base := [], alleles := "A".data,
          base_qualities := "FF".data, snp_name := "rs1".data,
          snps := ([], []) } 30 =
      Except.error (qualsDifferPre ++ "rs1".data ++ qualsDifferSuf)) ∧
    ∃ r2, check_bases
        { chrom := [], pos := [], ref_base := [], alleles := "A".data,
          base_qualities := "F".data, snp_name := "rs1".data,
          snps := ([], []) } 30 = Except.ok r2 :=
  ⟨(check_bases_length_mismatch_fatal
      { chrom := [], pos := [], ref_base := [], alleles := "A".data,
        base_qualities := "FF".data, snp_name := "rs1".data,
        snps := ([], []) } 30).1 (by decide),
   (check_bases_length_mismatch_fatal
      { chrom := [], pos := [], ref_base := [], alleles := "A".data,
        base_qualities := "F".data, snp_name := "rs1".data,
        snps := ([], []) } 30).2 (by decide)⟩

/-- C7: `check_bases` is idempotent on length-aligned records: filtering
the already-filtered record with the same threshold changes nothing. -/
theorem check_bases_idempotent (r : LineDict) (t : Int)
    (h : r.alleles.length = r.base_qualities.length) :
    ∃ r1 r2, check_bases r t = Except.ok r1 ∧
      check_bases r1 t = Except.ok r2 ∧
      r2.alleles = r1.alleles ∧ r2.base_qualities = r1.base_qualities := by
  have h1 := check_bases_ok_eq r t h.symm
  set K := keptPairs t r.alleles r.base_qualities with hK
  refine ⟨_, _, h1, check_bases_ok_eq _ t (by simp), ?_, ?_⟩ <;>
    simp only [hK] <;>
    · show (keptPairs t (K.map Prod.fst) (K.map Prod.snd)).map _ = K.map _
      have hfix : keptPairs t (K.map Prod.fst) (K.map Prod.snd) = K := by
        rw [keptPairs, zip_map_fst_snd]
        apply List.filter_eq_self.mpr
        intro p hp
        rw [hK, keptPairs] at hp
        exact (List.mem_filter.mp hp).2
      rw [hfix]

/-- Witness for C7 at alleles `AG`, qualities `F!`, threshold 30. -/
theorem check_bases_idempotent_witness :
    "AG".data.length = "F!".data.length ∧
    ∃ r1 r2, check_bases
        { chrom := [], pos := [], ref_base := [], alleles := "AG".data,
          base_qualities := "F!".data, snp_name := [], snps := ([], []) } 30 =
        Except.ok r1 ∧
      check_bases r1 30 = Except.ok r2 ∧
      r2.alleles = r1.alleles ∧ r2.base_qualities = r1.base_qualities :=
  ⟨by decide,
   check_bases_idempotent
     { chrom := [], pos := [], ref_base := [], alleles := "AG".data,
       base_qualities := "F!".data, snp_name := [], snps := ([], []) } 30
     (by decide)⟩

/-- C9: `check_bases` only touches the `alleles` and `base_qualities`
keys: on a length-aligned record the returned dictionary carries the input
record's `chrom`, `pos`, `ref_base`, `snp_name` and `snps` unchanged. -/
theorem check_bases_frame (r : LineDict) (t : Int)
    (h : r.alleles.length = r.base_qualities.length) :
    ∃ r2, check_bases r t = Except.ok r2 ∧
      r2.chrom = r.chrom ∧ r2.pos = r.pos ∧ r2.ref_base = r.ref_base ∧
      r2.snp_name = r.snp_name ∧ r2.snps = r.snps :=
  ⟨_, check_bases_ok_eq r t h.symm, rfl, rfl, rfl, rfl, rfl⟩

/-- Witness for C9 at a fully concrete record. -/
theorem check_bases_frame_witness :
    "AG".data.length = "FF".data.length ∧
    ∃ r2, check_bases
        { chrom := "1".data, pos := "100".data, ref_base := "A".data,
          alleles := "AG".data, base_qualities := "FF".data,
          snp_name := "rs1".data, snps := ("A".data, "G".data) } 30 =
        Except.ok r2 ∧
      r2.chrom = "1".data ∧ r2.pos = "100".data ∧ r2.ref_base = "A".data ∧
      r2.snp_name = "rs1".data ∧ r2.snps = ("A".data, "G".data) :=
  ⟨by decide,
   check_bases_frame
     { chrom := "1".data, pos := "100".data, ref_base := "A".data,
       alleles := "AG".data, base_qualities := "FF".data,
       snp_name := "rs1".data, snps := ("A".data, "G".data) } 30
     (by decide)⟩

/-- Python `s.split('\t')`: split on every tab, keeping empty pieces
(`''.split('\t') == ['']`). -/
def splitOnTab : List Char → List (List Char)
  | [] => [[]]
  | c :: rest =>
    match splitOnTab rest with
    | [] => [[]]
    | g :: gs => if c = '\t' then [] :: g :: gs else (c :: g) :: gs

/-- Python `s.rstrip(']')`: drop every trailing `]` character. -/
def rstripBracket (s : List Char) : List Char :=
  (s.reverse.dropWhile (fun c => c = ']')).reverse

/-- Python `s.upper()` restricted to ASCII data (the only data pileup
lines carry): upper-case each character with `Char.toUpper`, which maps
exactly the ASCII letters `a`-`z`. -/
def pyUpper (s : List Char) : List Char := s.map Char.toUpper

/-- One pass of Python `s.replace(pat, '')`: scan left to right; at a
position where `pat` is a prefix, drop it and resume after the match
(non-overlapping); otherwise keep the character. The fuel argument bounds
the recursion; `s.length` fuel always suffices. An empty pattern leaves
the string unchanged, as `s.replace('', '')` does. -/
def pyReplaceGo (pat : List Char) : Nat → List Char → List Char
  | _, [] => []
  | 0, s => s
  | fuel + 1, c :: rest =>
    if !pat.isEmpty && pat.isPrefixOf (c :: rest) then
      pyReplaceGo pat fuel (rest.drop (pat.length - 1))
    else
      c :: pyReplaceGo pat fuel rest

/-- Python `s.replace(pat, '')`. -/
def pyReplace (pat s : List Char) : List Char := pyReplaceGo pat s.length s

/-- The chromosome normalization of `filter_line`:
`pileup_line_list[0].replace("chr", "").replace("OAR", "").replace("Chr", "")`,
i.e. sequential one-pass removals in the fixed order `chr`, `OAR`, `Chr`. -/
def normalizeChrom (s : List Char) : List Char :=
  pyReplace "Chr".data (pyReplace "OAR".data (pyReplace "chr".data s))

/-- Whether `pat` occurs as a contiguous substring of `s`. -/
def occursIn (pat : List Char) : List Char → Bool
  | [] => pat.isPrefixOf []
  | c :: rest => pat.isPrefixOf (c :: rest) || occursIn pat rest

/-- `filter_line(pileup_line_list)`: build the line dictionary from a
split pileup line. Indexing past the end of the field list or of the
tab-split info payload raises `IndexError` in Python; that is modelled by
`none`. -/
def filter_line (pileup_line_list : List (List Char)) : Option LineDict := do
  let info_field ← pileup_line_list.get? 6
  let info_cols := splitOnTab info_field
  let short_snp_name ← info_cols.get? 2
  let snp_a ← info_cols.get? 3
  let snp_b0 ← info_cols.get? 4
  let f0 ← pileup_line_list.get? 0
  let f1 ← pileup_line_list.get? 1
  let f2 ← pileup_line_list.get? 2
  let f3 ← pileup_line_list.get? 3
  let f4 ← pileup_line_list.get? 4
  some { chrom := normalizeChrom f0, pos := f1, ref_base := f2,
         alleles := pyUpper f3, base_qualities := f4,
         snp_name := short_snp_name, snps := (snp_a, rstripBracket snp_b0) }

theorem pyReplaceGo_of_not_occurs (pat : List Char) :
    ∀ (fuel : Nat) (s : List Char), occursIn pat s = false →
      pyReplaceGo pat fuel s = s := by
  intro fuel
  induction fuel with
  | zero => intro s _; cases s <;> rfl
  | succ n ih =>
    intro s hs
    cases s with
    | nil => rfl
    | cons c rest =>
      simp only [occursIn, Bool.or_eq_false_iff] at hs
      simp only [pyReplaceGo, hs.1, Bool.and_false, Bool.false_eq_true,
        if_neg, ih rest hs.2]
      simp [hs.1]

theorem pyReplace_of_not_occurs (pat s : List Char)
    (h : occursIn pat s = false) : pyReplace pat s = s :=
  pyReplaceGo_of_not_occurs pat s.length s h

/-- C8 counterexample: the normalization is not order-independent. On the
input `OchrAR` the source's fixed order (`chr`, then `OAR`, then `Chr`)
yields the empty string, while removing `OAR` first, then `chr`, then
`Chr` yields `OAR`. -/
theorem chrom_normalization_not_order_independent :
    normalizeChrom "OchrAR".data = [] ∧
    pyReplace "Chr".data (pyReplace "chr".data
      (pyReplace "OAR".data "OchrAR".data)) = "OAR".data ∧
    ([] : List Char) ≠ "OAR".data := by
  refine ⟨by decide, by decide, by decide⟩

/-- C8 amended: the normalization is the fixed-order sequence of one-pass
removals `chr`, `OAR`, `Chr`; a string containing none of the three
substrings is left unchanged, and `chrOAR1` normalizes to `1`. -/
theorem chrom_normalization_fixed_order (s : List Char)
    (h1 : occursIn "chr".data s = false)
    (h2 : occursIn "OAR".data s = false)
    (h3 : occursIn "Chr".data s = false) :
    normalizeChrom s = s ∧ normalizeChrom "chrOAR1".data = "1".data := by
  refine ⟨?_, by decide⟩
  rw [normalizeChrom, pyReplace_of_not_occurs _ _ h1,
    pyReplace_of_not_occurs _ _ h2, pyReplace_of_not_occurs _ _ h3]

/-- Witness for the amended C8 at the pattern-free string `1A2`. -/
theorem chrom_normalization_fixed_order_witness :
    normalizeChrom "1A2".data = "1A2".data ∧
    normalizeChrom "chrOAR1".data = "1".data :=
  chrom_normalization_fixed_order "1A2".data (by decide) (by decide)
    (by decide)

/-- C5: for a valid 7-field line — the allele field and the quality field
index-aligned (equal length), and the info payload carrying the five
tab-separated sub-fields extraction needs — `filter_line` produces a
record with `len(alleles) == len(base_qualities)`, and `check_bases`
returns a record for which the equality still holds. -/
theorem filter_then_check_preserves_alignment
    (f0 f1 f2 f3 f4 f5 f6 : List Char) (t : Int)
    (hsub : 5 ≤ (splitOnTab f6).length) (hlen : f3.length = f4.length) :
    ∃ r, filter_line [f0, f1, f2, f3, f4, f5, f6] = some r ∧
      r.alleles.length = r.base_qualities.length ∧
      ∃ r2, check_bases r t = Except.ok r2 ∧
        r2.alleles.length = r2.base_qualities.length := by
  have h2 := List.get?_eq_get (l := splitOnTab f6) (n := 2) (by omega)
  have h3 := List.get?_eq_get (l := splitOnTab f6) (n := 3) (by omega)
  have h4 := List.get?_eq_get (l := splitOnTab f6) (n := 4) (by omega)
  refine ⟨{ chrom := normalizeChrom f0, pos := f1, ref_base := f2,
            alleles := pyUpper f3, base_qualities := f4,
            snp_name := (splitOnTab f6).get ⟨2, by omega⟩,
            snps := ((splitOnTab f6).get ⟨3, by omega⟩,
              rstripBracket ((splitOnTab f6).get ⟨4, by omega⟩)) },
         ?_, ?_, ?_⟩
  · simp only [filter_line, List.get?, Option.bind_eq_bind, Option.some_bind,
      h2, h3, h4]
  · simpa [pyUpper] using hlen
  · have hl : (pyUpper f3).length = f4.length := by simpa [pyUpper] using hlen
    exact ⟨_, check_bases_ok_eq _ t hl.symm, by simp⟩

/-- Witness for C5 on the concrete line
`chr1 100 A AaAAG FFFFF x ?<TAB>info<TAB>rs1<TAB>A<TAB>G]`. -/
theorem filter_then_check_preserves_alignment_witness :
    5 ≤ (splitOnTab "?\tinfo\trs1\tA\tG]".data).length ∧
    "AaAAG".data.length = "FFFFF".data.length ∧
    ∃ r, filter_line
        ["chr1".data, "100".data, "A".data, "AaAAG".data, "FFFFF".data,
         "x".data, "?\tinfo\trs1\tA\tG]".data] = some r ∧
      r.alleles.length = r.base_qualities.length ∧
      ∃ r2, check_bases r 30 = Except.ok r2 ∧
        r2.alleles.length = r2.base_qualities.length :=
  ⟨by decide, by decide,
   filter_then_check_preserves_alignment "chr1".data "100".data "A".data
     "AaAAG".data "FFFFF".data "x".data "?\tinfo\trs1\tA\tG]".data 30
     (by decide) (by decide)⟩

/-- The distinct characters of a list in first-occurrence order: the keys
of `Counter(alleles)`. -/
def counterKeys : List Char → List Char
  | [] => []
  | c :: rest => c :: (counterKeys rest).filter (fun d => d ≠ c)

/-- The (element, multiplicity) items of `Counter(alleles)`. -/
def counterItems (l : List Char) : List (Char × Nat) :=
  (counterKeys l).map (fun c => (c, l.count c))

/-- The comparison `Counter.most_common` sorts by: descending count. -/
def byCountDesc (p q : Char × Nat) : Prop := q.2 ≤ p.2

instance : DecidableRel byCountDesc := fun p q => Nat.decLe q.2 p.2

instance : IsTotal (Char × Nat) byCountDesc :=
  ⟨fun a b => (Nat.le_total b.2 a.2).imp id id⟩

instance : IsTrans (Char × Nat) byCountDesc :=
  ⟨fun _ _ _ h1 h2 => Nat.le_trans h2 h1⟩

/-- `Counter(alleles).most_common()`: the counter items sorted by
descending count. -/
def most_common (l : List Char) : List (Char × Nat) :=
  (counterItems l).insertionSort byCountDesc

/-- `find_max_base(alleles)`: read the maximum count off the head of
`most_common`, collect every allele attaining it, and return the one
`random.choice` picks. The random draw is modelled by the extra `pick`
argument: the chosen index is `pick % len(max_alleles)`, so every tied
candidate is the result for some `pick`. An empty allele sequence raises
`IndexError` in Python; that is modelled by `none`. -/
def find_max_base (alleles : List Char) (pick : Nat) : Option Char :=
  match most_common alleles with
  | [] => none
  | top :: rest =>
    let max_count := top.2
    let max_alleles :=
      ((top :: rest).filter (fun p => p.2 = max_count)).map Prod.fst
    max_alleles.get? (pick % max_alleles.length)

/-- The maximum multiplicity attained in a character list. -/
def maxCount (l : List Char) : Nat :=
  (l.map (fun c => l.count c)).foldr Nat.max 0

theorem le_foldr_max {a : Nat} {l : List Nat} (h : a ∈ l) :
    a ≤ l.foldr Nat.max 0 := by
  induction l with
  | nil => cases h
  | cons b bs ih =>
    rcases List.mem_cons.mp h with rfl | h2
    · exact Nat.le_max_left _ _
    · exact Nat.le_trans (ih h2) (Nat.le_max_right _ _)

theorem foldr_max_le {B : Nat} {l : List Nat} (h : ∀ a ∈ l, a ≤ B) :
    l.foldr Nat.max 0 ≤ B := by
  induction l with
  | nil => exact Nat.zero_le B
  | cons b bs ih =>
    exact Nat.max_le.mpr ⟨h b (List.mem_cons_self b bs),
      ih (fun a ha => h a (List.mem_cons_of_mem b ha))⟩

theorem mem_counterKeys {c : Char} {l : List Char} :
    c ∈ counterKeys l ↔ c ∈ l := by
  induction l with
  | nil => simp [counterKeys]
  | cons b bs ih =>
    simp only [counterKeys, List.mem_cons, List.mem_filter]
    constructor
    · rintro (rfl | ⟨h1, _⟩)
      · exact Or.inl rfl
      · exact Or.inr (ih.mp h1)
    · rintro (rfl | h2)
      · exact Or.inl rfl
      · by_cases hc : c = b
        · exact Or.inl hc
        · exact Or.inr ⟨ih.mpr h2, by simpa using hc⟩

theorem mem_counterItems {p : Char × Nat} {l : List Char} :
    p ∈ counterItems l ↔ p.1 ∈ l ∧ p.2 = l.count p.1 := by
  simp only [counterItems, List.mem_map]
  constructor
  · rintro ⟨c, hc, rfl⟩
    exact ⟨mem_counterKeys.mp hc, rfl⟩
  · rintro ⟨h1, h2⟩
    exact ⟨p.1, mem_counterKeys.mpr h1, by rw [← h2]⟩

theorem mem_most_common {p : Char × Nat} {l : List Char} :
    p ∈ most_common l ↔ p.1 ∈ l ∧ p.2 = l.count p.1 := by
  rw [most_common]
  rw [(List.perm_insertionSort byCountDesc (counterItems l)).mem_iff]
  exact mem_counterItems

theorem most_common_ne_nil {l : List Char} (h : l ≠ []) :
    most_common l ≠ [] := by
  intro hmc
  rcases List.exists_mem_of_ne_nil l h with ⟨c, hc⟩
  have : (c, l.count c) ∈ most_common l := mem_most_common.mpr ⟨hc, rfl⟩
  simp [hmc] at this

/-- The head of `most_common` carries the maximum multiplicity. -/
theorem most_common_head_count {l : List Char} {top : Char × Nat}
    {rest : List (Char × Nat)} (hmc : most_common l = top :: rest) :
    top.2 = maxCount l := by
  have hsorted : List.Sorted byCountDesc (top :: rest) := by
    rw [← hmc]
    exact List.sorted_insertionSort byCountDesc (counterItems l)
  have htop : top ∈ most_common l := by rw [hmc]; exact List.mem_cons_self _ _
  have htop2 := mem_most_common.mp htop
  apply Nat.le_antisymm
  · rw [htop2.2]
    exact le_foldr_max (List.mem_map_of_mem _ htop2.1)
  · apply foldr_max_le
    intro a ha
    rcases List.mem_map.mp ha with ⟨d, hd, rfl⟩
    have : (d, l.count d) ∈ most_common l := mem_most_common.mpr ⟨hd, rfl⟩
    rw [hmc] at this
    rcases List.mem_cons.mp this with heq | hmem
    · rw [← heq]
    · exact List.rel_of_sorted_cons hsorted _ hmem

/-- Whatever `random.choice` picks, `find_max_base` returns a member of
the input list whose multiplicity is the maximum one. -/
theorem find_max_base_some_spec {l : List Char} {pick : Nat} {c : Char}
    (h : find_max_base l pick = some c) :
    c ∈ l ∧ l.count c = maxCount l := by
  rw [find_max_base] at h
  cases hmc : most_common l with
  | nil => rw [hmc] at h; cases h
  | cons top rest =>
    rw [hmc] at h
    simp only at h
    have hcm := List.get?_mem h
    rcases List.mem_map.mp hcm with ⟨p, hpf, rfl⟩
    have hp1 := List.mem_filter.mp hpf
    have hpm : p ∈ most_common l := by rw [hmc]; exact hp1.1
    have hspec := mem_most_common.mp hpm
    have hcnt : p.2 = maxCount l := by
      have := of_decide_eq_true hp1.2
      rw [this]
      exact most_common_head_count hmc
    exact ⟨hspec.1, by rw [← hspec.2, hcnt]⟩

/-- On a non-empty list, `find_max_base` returns a value for every pick. -/
theorem find_max_base_exists (l : List Char) (pick : Nat) (h : l ≠ []) :
    ∃ c, find_max_base l pick = some c := by
  rw [find_max_base]
  cases hmc : most_common l with
  | nil => exact absurd hmc (most_common_ne_nil h)
  | cons top rest =>
    simp only
    set ma := ((top :: rest).filter (fun p => p.2 = top.2)).map Prod.fst
      with hma
    have hne : ma ≠ [] := by
      have : top ∈ (top :: rest).filter (fun p => p.2 = top.2) :=
        List.mem_filter.mpr ⟨List.mem_cons_self _ _, by simp⟩
      have : top.1 ∈ ma := by
        rw [hma]; exact List.mem_map_of_mem _ this
      exact List.ne_nil_of_mem this
    have hlt : pick % ma.length < ma.length :=
      Nat.mod_lt _ (List.length_pos.mpr hne)
    exact ⟨ma.get ⟨_, hlt⟩, List.get?_eq_get hlt⟩

/-- C2: for every non-empty allele sequence and every random draw,
`find_max_base` returns an allele of the sequence whose occurrence count
is the maximum occurrence count; when a unique allele attains the maximum
the result is that allele for every draw; and on the tied input `AAGG`
the result is `A` or `G` for every draw. -/
theorem find_max_base_consensus_spec (l : List Char) (pick : Nat)
    (h : l ≠ []) :
    ∃ c, find_max_base l pick = some c ∧ c ∈ l ∧
      l.count c = maxCount l ∧
      (∀ m, (∀ d ∈ l, l.count d = maxCount l → d = m) → c = m) ∧
      (∀ k, ∃ c2, find_max_base "AAGG".data k = some c2 ∧
        (c2 = 'A' ∨ c2 = 'G')) := by
  rcases find_max_base_exists l pick h with ⟨c, hc⟩
  have hspec := find_max_base_some_spec hc
  refine ⟨c, hc, hspec.1, hspec.2, ?_, ?_⟩
  · intro m hm
    exact hm c hspec.1 hspec.2
  · intro k
    rcases find_max_base_exists "AAGG".data k (by decide) with ⟨c2, hc2⟩
    have h2 := find_max_base_some_spec hc2
    refine ⟨c2, hc2, ?_⟩
    have hmem := h2.1
    rcases hmem with _ | ⟨_, _ | ⟨_, _ | ⟨_, _ | ⟨_, h⟩⟩⟩⟩
    · exact Or.inl rfl
    · exact Or.inl rfl
    · exact Or.inr rfl
    · exact Or.inr rfl
    · cases h

/-- Witness for C2 at the sequence `AAG` with draw 5: consensus is the
unique mode `A`. -/
theorem find_max_base_consensus_spec_witness :
    ∃ c, find_max_base "AAG".data 5 = some c ∧ c ∈ "AAG".data ∧
      "AAG".data.count c = maxCount "AAG".data ∧
      (∀ m, (∀ d ∈ "AAG".data, "AAG".data.count d = maxCount "AAG".data →
        d = m) → c = m) ∧
      (∀ k, ∃ c2, find_max_base "AAGG".data k = some c2 ∧
        (c2 = 'A' ∨ c2 = 'G')) :=
  find_max_base_consensus_spec "AAG".data 5 (by decide)

/-- `allele_check(snp_tuple, allele)`: true exactly when the allele equals
the first or the second expected reference allele. -/
def allele_check (snp_tuple : List Char × List Char) (allele : List Char) :
    Bool :=
  if allele = snp_tuple.1 ∨ allele = snp_tuple.2 then true else false

/-- C4: `allele_check` returns true iff the called allele equals one of
the two expected alleles, character for character, with no normalization;
with expected pair `(A, G)`, alleles `A` and `G` are accepted and `T` is
rejected. -/
theorem allele_check_membership (snp_tuple : List Char × List Char)
    (allele : List Char) :
    (allele_check snp_tuple allele = true ↔
      (allele = snp_tuple.1 ∨ allele = snp_tuple.2)) ∧
    allele_check ("A".data, "G".data) "A".data = true ∧
    allele_check ("A".data, "G".data) "G".data = true ∧
    allele_check ("A".data, "G".data) "T".data = false := by
  refine ⟨?_, by decide, by decide, by decide⟩
  simp [allele_check]

/-- Prefix of the reduced-output notice printed by `pileup_ok`. -/
def reduceNoticePre : List Char :=
  "NB: GATK pileup reporting reduced output stating only ".data

/-- Suffix of the reduced-output notice printed by `pileup_ok`. -/
def reduceNoticeSuf : List Char := " SNPs used.".data

/-- The fatal message of `pileup_ok` for a malformed line. -/
def malformedMsg : List Char := "Error: Malformed pileup file stopping.".data

/-- `pileup_ok(pileup_line_list)`: 7 fields is well-formed (`True`);
6 fields starting with `[REDUCE` prints the reduced-output notice quoting
field 5 and returns `False`; anything else raises `SystemExit`. The
printed notice is returned alongside the Boolean, modelling stdout. -/
def pileup_ok (pileup_line_list : List (List Char)) :
    Except (List Char) (Bool × List (List Char)) :=
  if pileup_line_list.length = 7 then
    Except.ok (true, [])
  else if pileup_line_list.length = 6 ∧
      pileup_line_list.getD 0 [] = "[REDUCE".data then
    Except.ok (false,
      [reduceNoticePre ++ pileup_line_list.getD 5 [] ++ reduceNoticeSuf])
  else
    Except.error malformedMsg

theorem pileup_ok_of_len7 {cols : List (List Char)} (h7 : cols.length = 7) :
    pileup_ok cols = Except.ok (true, []) := by
  simp [pileup_ok, h7]

theorem pileup_ok_of_reduce {cols : List (List Char)} (h6 : cols.length = 6)
    (hred : cols.getD 0 [] = "[REDUCE".data) :
    pileup_ok cols = Except.ok (false,
      [reduceNoticePre ++ cols.getD 5 [] ++ reduceNoticeSuf]) := by
  rw [pileup_ok, if_neg (by omega), if_pos ⟨h6, hred⟩]

/-- C3: `pileup_ok` classifies every split line three ways: exactly 7
fields is accepted for extraction (true); exactly 6 fields with field 0
equal to `[REDUCE` is a non-error skip (false) whose notice quotes the
count in field 5; every other shape is a fatal malformed-input error. -/
theorem pileup_ok_classification (cols : List (List Char)) :
    (cols.length = 7 → pileup_ok cols = Except.ok (true, [])) ∧
    (cols.length = 6 → cols.getD 0 [] = "[REDUCE".data →
      pileup_ok cols = Except.ok (false,
        [reduceNoticePre ++ cols.getD 5 [] ++ reduceNoticeSuf])) ∧
    (cols.length ≠ 7 →
      ¬(cols.length = 6 ∧ cols.getD 0 [] = "[REDUCE".data) →
      pileup_ok cols = Except.error malformedMsg) := by
  refine ⟨fun h7 => pileup_ok_of_len7 h7,
    fun h6 hred => pileup_ok_of_reduce h6 hred, ?_⟩
  intro h7 hother
  simp only [pileup_ok, if_neg h7, if_neg hother]

/-- Witness for C3: a concrete 7-field line, a concrete `[REDUCE` marker
line whose notice quotes `42`, and a concrete 5-field malformed line. -/
theorem pileup_ok_classification_witness :
    pileup_ok ["a".data, "b".data, "c".data, "d".data, "e".data, "f".data,
      "g".data] = Except.ok (true, []) ∧
    pileup_ok ["[REDUCE".data, "b".data, "c".data, "d".data, "e".data,
      "42".data] = Except.ok (false,
        [reduceNoticePre ++ "42".data ++ reduceNoticeSuf]) ∧
    pileup_ok ["a".data, "b".data, "c".data, "d".data, "e".data] =
      Except.error malformedMsg :=
  ⟨(pileup_ok_classification _).1 (by decide),
   (pileup_ok_classification ["[REDUCE".data, "b".data, "c".data,
      "d".data, "e".data, "42".data]).2.1 (by decide) (by decide),
   (pileup_ok_classification ["a".data, "b".data, "c".data, "d".data,
      "e".data]).2.2 (by decide) (by decide)⟩

/-- The mutable state of one conversion run inside `parse_pileup_file`:
the two counters `ct_good` and `ct_bad`, the chunks appended to the PED
file, the lines appended to the MAP file, and the messages printed to
stdout. -/
structure RunState where
  ct_good : Nat
  ct_bad : Nat
  ped_out : List (List Char)
  map_out : List (List Char)
  log : List (List Char)
deriving DecidableEq, Repr

/-- The PED chunk `' {a} {a}'` written for an accepted call. -/
def pedEntry (a : Char) : List Char := [' ', a, ' ', a]

/-- The MAP line `'{c}\t{s}\t0\t{p}\n'` written for an accepted call. -/
def mapEntry (r : LineDict) : List Char :=
  r.chrom ++ '\t' :: (r.snp_name ++ '\t' :: '0' :: '\t' :: (r.pos ++ ['\n']))

/-- The per-site log line `'{} possible tri-allele removed'`. -/
def triAlleleMsg (r : LineDict) : List Char :=
  r.snp_name ++ " possible tri-allele removed".data

/-- The per-site log line `'{} failed filters'`. -/
def failedFiltersMsg (r : LineDict) : List Char :=
  r.snp_name ++ " failed filters".data

/-- The message of the `IndexError` Python raises on an out-of-range
index (`filter_line` on a short info payload, `find_max_base` on an empty
sequence). -/
def indexErrorMsg : List Char := "IndexError".data

/-- The body of the `for each_record in f` loop of `parse_pileup_file`,
acting on one already-split line: validate it, extract and quality-filter
the record, call the consensus allele, check it against the expected
pair, and update counters, output files and log accordingly. `pick`
models the `random.choice` draw inside `find_max_base`. A `SystemExit`
or `IndexError` aborts the run (`Except.error`). -/
def parse_pileup_step (base_min_quality : Int) (pick : Nat) (st : RunState)
    (pileup_cols : List (List Char)) : Except (List Char) RunState :=
  match pileup_ok pileup_cols with
  | Except.error e => Except.error e
  | Except.ok flag_and_notice =>
    if flag_and_notice.1 then
      match filter_line pileup_cols with
      | none => Except.error indexErrorMsg
      | some line_info =>
        match check_bases line_info base_min_quality with
        | Except.error e => Except.error e
        | Except.ok line_info2 =>
          if line_info2.alleles.length ≠ 0 then
            match find_max_base line_info2.alleles pick with
            | none => Except.error indexErrorMsg
            | some allele_called =>
              if allele_check line_info2.snps [allele_called] then
                Except.ok { st with
                  ct_good := st.ct_good + 1,
                  ped_out := st.ped_out ++ [pedEntry allele_called],
                  map_out := st.map_out ++ [mapEntry line_info2] }
              else
                Except.ok { st with
                  ct_bad := st.ct_bad + 1,
                  log := st.log ++ [triAlleleMsg line_info2] }
          else
            Except.ok { st with
              ct_bad := st.ct_bad + 1,
              log := st.log ++ [failedFiltersMsg line_info2] }
    else
      Except.ok { st with log := st.log ++ flag_and_notice.2 }

/-- C10: a 7-field line that the run processes without a fatal error
increments exactly one of the two counters by exactly one, and it appends
one PED chunk and one MAP line exactly when it increments the accepted
counter; a `[REDUCE` marker line changes neither counter and writes no
output. -/
theorem parse_pileup_step_counters (q : Int) (pick : Nat) (st : RunState)
    (cols : List (List Char)) (st2 : RunState) :
    (cols.length = 7 → parse_pileup_step q pick st cols = Except.ok st2 →
      ((st2.ct_good = st.ct_good + 1 ∧ st2.ct_bad = st.ct_bad ∧
          (∃ a m, st2.ped_out = st.ped_out ++ [a] ∧
            st2.map_out = st.map_out ++ [m])) ∨
        (st2.ct_bad = st.ct_bad + 1 ∧ st2.ct_good = st.ct_good ∧
          st2.ped_out = st.ped_out ∧ st2.map_out = st.map_out))) ∧
    (cols.length = 6 → cols.getD 0 [] = "[REDUCE".data →
      parse_pileup_step q pick st cols = Except.ok st2 →
      st2.ct_good = st.ct_good ∧ st2.ct_bad = st.ct_bad ∧
        st2.ped_out = st.ped_out ∧ st2.map_out = st.map_out) := by
  constructor
  · intro h7 hstep
    have hok := pileup_ok_of_len7 h7
    simp only [parse_pileup_step, hok, if_true] at hstep
    split at hstep
    · cases hstep
    · split at hstep
      · cases hstep
      · split at hstep
        · split at hstep
          · cases hstep
          · split at hstep
            · cases hstep
              exact Or.inl ⟨rfl, rfl, _, _, rfl, rfl⟩
            · cases hstep
              exact Or.inr ⟨rfl, rfl, rfl, rfl⟩
        · cases hstep
          exact Or.inr ⟨rfl, rfl, rfl, rfl⟩
  · intro h6 hred hstep
    have hok := pileup_ok_of_reduce h6 hred
    simp only [parse_pileup_step, hok, Bool.false_eq_true, if_false] at hstep
    cases hstep
    exact ⟨rfl, rfl, rfl, rfl⟩

/-- The split form of the accepted end-to-end example line
`chr1 100 A AAAAG FFFFF x ?<TAB>info<TAB>rs1<TAB>A<TAB>G]`. -/
def exampleCols : List (List Char) :=
  ["chr1".data, "100".data, "A".data, "AAAAG".data, "FFFFF".data,
   "x".data, "?\tinfo\trs1\tA\tG]".data]

/-- The record extracted and quality-filtered from `exampleCols`. -/
def exampleRecord : LineDict :=
  { chrom := "1".data, pos := "100".data, ref_base := "A".data,
    alleles := "AAAAG".data, base_qualities := "FFFFF".data,
    snp_name := "rs1".data, snps := ("A".data, "G".data) }

/-- The empty run state at the start of a conversion run. -/
def exampleState0 : RunState :=
  { ct_good := 0, ct_bad := 0, ped_out := [], map_out := [], log := [] }

/-- The run state after `exampleCols` is accepted. -/
def exampleState1 : RunState :=
  { ct_good := 1, ct_bad := 0, ped_out := [pedEntry 'A'],
    map_out := [mapEntry exampleRecord], log := [] }

/-- Witness for C10: the example line is accepted at threshold 30 with
draw 0 (consensus `A` matches the expected pair), so the accepted counter
gains one and one chunk goes to each output file. -/
theorem parse_pileup_step_counters_witness :
    (exampleState1.ct_good = exampleState0.ct_good + 1 ∧
      exampleState1.ct_bad = exampleState0.ct_bad ∧
      (∃ a m, exampleState1.ped_out = exampleState0.ped_out ++ [a] ∧
        exampleState1.map_out = exampleState0.map_out ++ [m])) ∨
    (exampleState1.ct_bad = exampleState0.ct_bad + 1 ∧
      exampleState1.ct_good = exampleState0.ct_good ∧
      exampleState1.ped_out = exampleState0.ped_out ∧
      exampleState1.map_out = exampleState0.map_out) :=
  (parse_pileup_step_counters 30 0 exampleState0 exampleCols
    exampleState1).1 (by decide) (by rfl)

end PileupTools
